import Mathlib

/-
Verification of the activity-accounting engine of the wxt-extn-preact
repository.  The definitions below are a shallow embedding of the
TypeScript source, chiefly src/entrypoints/background.ts (the canonical
background entrypoint) together with src/shared/utils/url-utils.ts and
the constants of src/unnamed/part_008.  Timestamps are modelled as Int
milliseconds; the Dexie tables are modelled as lists of records carried
in an explicit Store value; JavaScript truthiness tests on numeric
fields (for example on currentSessionStart) are modelled explicitly.
-/

namespace Analytics

/-! ## URL utilities (src/shared/utils/url-utils.ts, duplicated in background.ts)

The host URL constructor is external to the repository; the embedding is
parameterised by a parse function returning the components the source
reads (protocol, host, hostname, pathname) plus the query and fragment
it drops.  A parse failure (the thrown TypeError of the constructor)
is the none case, handled by the catch branch of the source. -/

structure URLParts where
  protocol : String
  host : String
  hostname : String
  pathname : String
  search : String
  fragment : String
deriving DecidableEq, Repr

/-- cleanUrl: on parse success, protocol + "//" + host + pathname; on
failure (catch) the raw input. -/
def cleanUrl (parse : String → Option URLParts) (url : String) : String :=
  match parse url with
  | some u => u.protocol ++ "//" ++ u.host ++ u.pathname
  | none => url

/-- extractDomain: on parse success, the hostname; on failure the
literal string "unknown". -/
def extractDomain (parse : String → Option URLParts) (url : String) : String :=
  match parse url with
  | some u => u.hostname
  | none => "unknown"

/-! ## Data model (pages / events / sessions / settings tables) -/

structure Page where
  id : Nat
  url : String
  domain : String
  title : String
  firstVisit : Int
  lastVisit : Int
  totalActiveTime : Int
  currentSessionStart : Option Int
  visitCount : Nat
deriving DecidableEq, Repr

structure Event where
  pageId : Nat
  sessionId : String
  timestamp : Int
  etype : String
  payload : Option String
deriving DecidableEq, Repr

structure Session where
  id : Nat
  sessionId : String
  startTime : Int
  endTime : Option Int
  isActive : Bool
deriving DecidableEq, Repr

structure Setting where
  key : String
  value : String
deriving DecidableEq, Repr

structure DomainRule where
  domain : String
  ruleType : String
deriving DecidableEq, Repr

/-- The persisted store: the pages/events/sessions/settings tables of
AnalyticsDB (background.ts) plus the domain_rules table of the variant
schema.  nextPageId / nextSessionRowId model the Dexie auto-increment
keys, which clear() does not reset. -/
structure Store where
  pages : List Page
  events : List Event
  sessions : List Session
  settings : List Setting
  domain_rules : List DomainRule
  nextPageId : Nat
  nextSessionRowId : Nat
deriving DecidableEq, Repr

/-- JavaScript truthiness of the numeric currentSessionStart field: an
absent value and the number 0 are both falsy. -/
def truthyStart : Option Int → Option Int
  | some s => if s = 0 then none else some s
  | none => none

def findPageById (pages : List Page) (pid : Nat) : Option Page :=
  pages.find? (fun p => p.id == pid)

def findPageByUrl (pages : List Page) (u : String) : Option Page :=
  pages.find? (fun p => p.url == u)

/-- Dexie table.update keyed by primary id. -/
def updatePageById (pages : List Page) (pid : Nat) (f : Page → Page) : List Page :=
  pages.map (fun p => if p.id = pid then f p else p)

/-! ## DatabaseService (background.ts lines 132-256) -/

/-- DatabaseService.upsertPage: look up by cleaned url; update
title/lastVisit/visitCount if present, else add a fresh row with
visitCount 1 and totalActiveTime 0.  Returns the resulting aggregate
and the new store. -/
def upsertPage (parse : String → Option URLParts) (st : Store)
    (url title : String) (now : Int) : Page × Store :=
  let cleanedUrl := cleanUrl parse url
  let domain := extractDomain parse cleanedUrl
  match findPageByUrl st.pages cleanedUrl with
  | some existingPage =>
    let updatedPage := { existingPage with
      title := title, lastVisit := now, visitCount := existingPage.visitCount + 1 }
    (updatedPage,
     { st with pages := updatePageById st.pages existingPage.id (fun p =>
        { p with title := title, lastVisit := now,
                 visitCount := existingPage.visitCount + 1 }) })
  | none =>
    let newPage : Page :=
      { id := st.nextPageId, url := cleanedUrl, domain := domain, title := title,
        firstVisit := now, lastVisit := now, totalActiveTime := 0,
        currentSessionStart := none, visitCount := 1 }
    (newPage, { st with pages := st.pages ++ [newPage],
                        nextPageId := st.nextPageId + 1 })

/-- DatabaseService.addEvent. -/
def addEvent (st : Store) (pageId : Nat) (sessionId : String)
    (etype : String) (payload : Option String) (now : Int) : Store :=
  { st with events := st.events ++ [⟨pageId, sessionId, now, etype, payload⟩] }

/-- DatabaseService.startPageActivity: no-op when the page is absent or
its currentSessionStart is truthy; otherwise record the open-accrual
marker and refresh lastVisit. -/
def startPageActivity (st : Store) (pid : Nat) (now : Int) : Store :=
  match findPageById st.pages pid with
  | none => st
  | some page =>
    match truthyStart page.currentSessionStart with
    | some _ => st
    | none =>
      { st with pages := updatePageById st.pages pid (fun p =>
          { p with currentSessionStart := some now, lastVisit := now }) }

/-- DatabaseService.endPageActivity: returns 0 and mutates nothing when
the page is absent or its marker is falsy; otherwise commits
now - currentSessionStart onto totalActiveTime, clears the marker and
returns the elapsed span. -/
def endPageActivity (st : Store) (pid : Nat) (now : Int) : Int × Store :=
  match findPageById st.pages pid with
  | none => (0, st)
  | some page =>
    match truthyStart page.currentSessionStart with
    | none => (0, st)
    | some s =>
      let sessionTime := now - s
      (sessionTime,
       { st with pages := updatePageById st.pages pid (fun p =>
          { p with totalActiveTime := page.totalActiveTime + sessionTime,
                   currentSessionStart := none, lastVisit := now }) })

/-- The in-progress contribution of one page in getTodayActiveTime:
now - currentSessionStart when the marker is truthy and not before the
start of the day, else 0. -/
def todayOpenSpan (startOfDay now : Int) (page : Page) : Int :=
  match truthyStart page.currentSessionStart with
  | some s => if startOfDay ≤ s then now - s else 0
  | none => 0

/-- DatabaseService.getTodayActiveTime (background.ts lines 210-221):
reduce over every page, always adding the full committed
totalActiveTime, plus the open span when it started within today. -/
def getTodayActiveTime (st : Store) (startOfDay now : Int) : Int :=
  st.pages.foldl (fun total page =>
    total + page.totalActiveTime + todayOpenSpan startOfDay now page) 0

/-! ## getTopDomains (background.ts lines 223-247) -/

structure DomainStats where
  domain : String
  totalTime : Int
  pageCount : Nat
  visitCount : Nat
deriving DecidableEq, Repr

/-- One step of the domainMap accumulation: update the first entry of
the insertion-ordered map for this domain, else append a fresh entry
(JavaScript Map.set keeps insertion order). -/
def bumpDomain (m : List DomainStats) (d : String) (t : Int) (v : Nat) :
    List DomainStats :=
  match m with
  | [] => [⟨d, t, 1, v⟩]
  | e :: rest =>
    if e.domain = d then ⟨d, e.totalTime + t, e.pageCount + 1, e.visitCount + v⟩ :: rest
    else e :: bumpDomain rest d t v

/-- The domainMap built by the pages.forEach loop.  The background.ts
variant uses only the committed totalActiveTime of each page. -/
def domainEntries (st : Store) : List DomainStats :=
  st.pages.foldl (fun m page =>
    bumpDomain m page.domain page.totalActiveTime page.visitCount) []

/-- Ordering used by the sort comparator (a, b) => b.totalTime - a.totalTime. -/
def timeGE (a b : DomainStats) : Prop := b.totalTime ≤ a.totalTime

instance : DecidableRel timeGE :=
  fun a b => inferInstanceAs (Decidable (b.totalTime ≤ a.totalTime))

instance : IsTotal DomainStats timeGE := ⟨fun a b => le_total b.totalTime a.totalTime⟩

instance : IsTrans DomainStats timeGE := ⟨fun _ _ _ h1 h2 => le_trans h2 h1⟩

/-- DatabaseService.getTopDomains: group, sort descending by total
time (a stable sort, as Array.prototype.sort), truncate to the limit. -/
def getTopDomains (st : Store) (limit : Nat) : List DomainStats :=
  (List.insertionSort timeGE (domainEntries st)).take limit

/-- DatabaseService.clearAllData: transactionally wipe the pages,
events and sessions tables; the settings and domain_rules tables and
the auto-increment counters are untouched. -/
def clearAllData (st : Store) : Store :=
  { st with pages := [], events := [], sessions := [] }

/-! ## SessionManager (background.ts lines 63-130) -/

/-- In-memory state of the SessionManager singleton. -/
structure SessionMgr where
  currentSessionId : Option String
deriving DecidableEq, Repr

/-- The field update applied to a session row being force-closed. -/
def closeSessionRow (endTime : Int) (s : Session) : Session :=
  { s with endTime := some endTime, isActive := false }

def updateSessionById (l : List Session) (sid : Nat) (f : Session → Session) :
    List Session :=
  l.map (fun s => if s.id = sid then f s else s)

/-- The IndexedDB index key extracted from a boolean-valued stored
property.  IndexedDB (the physical engine behind the Dexie tables)
admits only numbers, dates, strings and binary/array values as index
keys; a row whose indexed property holds a boolean is absent from that
index altogether, so it yields no key. -/
def boolIndexKey (_b : Bool) : Option Int := none

/-- The Dexie query where(isActive).equals(key): the rows whose
isActive index key equals the queried numeric key.  The source only
ever stores isActive as the booleans true/false (sessions.add and the
update/modify calls), so no row carries an index key and the query
matches nothing. -/
def whereIsActiveEquals (key : Int) (sessions : List Session) : List Session :=
  sessions.filter (fun s => boolIndexKey s.isActive == some key)

/-- The initialize() sweep: query the rows whose isActive index key
equals 1 and update each one by primary id, setting endTime and
isActive false.  Because the stored isActive values are booleans, the
query result is empty and the sweep closes nothing. -/
def sessionInitClose (sessions : List Session) (endTime : Int) : List Session :=
  (whereIsActiveEquals 1 sessions).foldl
    (fun acc s => updateSessionById acc s.id (closeSessionRow endTime)) sessions

/-- SessionManager.endSession: modify the rows whose sessionId equals
the current one, then drop the in-memory id. -/
def endSession (sm : SessionMgr) (st : Store) (now : Int) : SessionMgr × Store :=
  match sm.currentSessionId with
  | none => (sm, st)
  | some sid =>
    (⟨none⟩,
     { st with sessions := st.sessions.map (fun s =>
        if s.sessionId = sid then { s with endTime := some now, isActive := false }
        else s) })

/-- SessionManager.startSession: end the previous session when one is
current, then add a fresh active row (genId stands for the generated
session-...-... identifier). -/
def startSession (sm : SessionMgr) (st : Store) (genId : String) (now : Int) :
    SessionMgr × Store :=
  let (_, st1) :=
    match sm.currentSessionId with
    | some _ => endSession sm st now
    | none => (sm, st)
  (⟨some genId⟩,
   { st1 with
      sessions := st1.sessions ++ [⟨st1.nextSessionRowId, genId, now, none, true⟩],
      nextSessionRowId := st1.nextSessionRowId + 1 })

/-- SessionManager.initialize: force-close every session left active,
then start the fresh session. -/
def sessionManagerInit (sm : SessionMgr) (st : Store) (genId : String) (now : Int) :
    SessionMgr × Store :=
  startSession sm { st with sessions := sessionInitClose st.sessions now } genId now

/-! ## TabManager (background.ts lines 258-492)

The in-memory ActiveTab map is an insertion-ordered association list
(as a JavaScript Map).  The host idle state is threaded as a Bool. -/

structure ActiveTab where
  tabId : Nat
  pageId : Nat
  url : String
  domain : String
  isVisible : Bool
  isIdle : Bool
  lastActivityTime : Int
deriving DecidableEq, Repr

structure TabMgr where
  activeTabs : List (Nat × ActiveTab)
  currentFocusedTab : Option Nat
deriving DecidableEq, Repr

def lookupTab (tm : TabMgr) (tid : Nat) : Option ActiveTab :=
  (tm.activeTabs.find? (fun kv => kv.1 == tid)).map Prod.snd

/-- Map.set: replace the entry in place, else append. -/
def setTab (tm : TabMgr) (tid : Nat) (v : ActiveTab) : TabMgr :=
  { tm with activeTabs :=
      if tm.activeTabs.any (fun kv => kv.1 == tid) then
        tm.activeTabs.map (fun kv => if kv.1 = tid then (tid, v) else kv)
      else tm.activeTabs ++ [(tid, v)] }

/-- TabManager.startTabActivity: only when the tab is tracked, visible,
the host is not idle and this is the focused tab; records the page
marker and refreshes lastActivityTime. -/
def startTabActivity (st : Store) (tm : TabMgr) (tid : Nat) (idle : Bool)
    (now : Int) : Store × TabMgr :=
  match lookupTab tm tid with
  | none => (st, tm)
  | some tab =>
    if tab.isVisible && !idle && (tm.currentFocusedTab == some tid) then
      (startPageActivity st tab.pageId now,
       setTab tm tid { tab with lastActivityTime := now })
    else (st, tm)

/-- TabManager.endTabActivity: commit the open accrual of the page the
tab is bound to; undefined (none) when the tab is untracked. -/
def endTabActivity (st : Store) (tm : TabMgr) (tid : Nat) (now : Int) :
    Option Int × Store :=
  match lookupTab tm tid with
  | none => (none, st)
  | some tab =>
    let (activeTime, st1) := endPageActivity st tab.pageId now
    (some activeTime, st1)

/-- TabManager.handlePageView: stop the accrual of the previous binding,
upsert the page by normalized URL, append the page_view event, rebind
the tab, and restart accrual when this tab is focused and not idle. -/
def handlePageView (parse : String → Option URLParts) (idle : Bool)
    (sessionId : String) (st : Store) (tm : TabMgr) (tid : Nat)
    (url title : String) (referrer : Option String) (now : Int) :
    Store × TabMgr :=
  let st1 := (endTabActivity st tm tid now).2
  let (page, st2) := upsertPage parse st1 url title now
  let st3 := addEvent st2 page.id sessionId "page_view" referrer now
  let tm1 := setTab tm tid
    { tabId := tid, pageId := page.id, url := page.url, domain := page.domain,
      isVisible := tm.currentFocusedTab == some tid, isIdle := idle,
      lastActivityTime := now }
  if tm1.currentFocusedTab == some tid && !idle then
    startTabActivity st3 tm1 tid idle now
  else (st3, tm1)

/-- TabManager.handleTabFocusGain.  The truthiness test on
currentFocusedTab makes a focused tab id 0 falsy. -/
def handleTabFocusGain (idle : Bool) (sessionId : String) (st : Store)
    (tm : TabMgr) (tid : Nat) (now : Int) : Store × TabMgr :=
  let st1 :=
    match tm.currentFocusedTab with
    | some prev => if prev ≠ 0 && prev ≠ tid then (endTabActivity st tm prev now).2 else st
    | none => st
  let tm1 := { tm with currentFocusedTab := some tid }
  match lookupTab tm1 tid with
  | none => (st1, tm1)
  | some tab =>
    let tm2 := setTab tm1 tid { tab with isVisible := true, lastActivityTime := now }
    let st2 := addEvent st1 tab.pageId sessionId "focus_gain" none now
    if !idle then startTabActivity st2 tm2 tid idle now else (st2, tm2)

/-- TabManager.handleVisibilityChange. -/
def handleVisibilityChange (idle : Bool) (sessionId : String) (st : Store)
    (tm : TabMgr) (tid : Nat) (visible : Bool) (now : Int) : Store × TabMgr :=
  match lookupTab tm tid with
  | none => (st, tm)
  | some tab =>
    if visible && !tab.isVisible then
      handleTabFocusGain idle sessionId st tm tid now
    else if !visible && tab.isVisible then
      let st1 := (endTabActivity st tm tid now).2
      (st1, setTab tm tid { tab with isVisible := false })
    else (st, tm)

/-- One open browser tab as seen by chrome.tabs.query during
TabManager.initialize.  id and url are optional and checked for
truthiness; windowFocused is none when chrome.windows.get throws. -/
structure OpenTab where
  id : Option Nat
  url : Option String
  title : Option String
  active : Bool
  windowFocused : Option Bool
deriving DecidableEq, Repr

/-- String prefix test (the semantics of String.startsWith, stated over
the character lists). -/
def strStartsWith (s pre : String) : Bool :=
  pre.data.isPrefixOf s.data

/-- Whether the initialize loop processes this tab:
tab.id && tab.url && the url does not start with the chrome scheme. -/
def trackableTab (t : OpenTab) : Bool :=
  (match t.id with | some i => i != 0 | none => false) &&
  (match t.url with
   | some u => u ≠ "" && !strStartsWith u "chrome://"
   | none => false)

/-- The body of the per-tab loop of TabManager.initialize. -/
def tabStep (parse : String → Option URLParts) (idle : Bool)
    (acc : Store × TabMgr) (t : OpenTab) (now : Int) : Store × TabMgr :=
  if trackableTab t then
    match t.id, t.url with
    | some tid, some url =>
      let (page, st1) := upsertPage parse acc.1 url (t.title.getD "") now
      let tm1 := setTab acc.2 tid
        { tabId := tid, pageId := page.id, url := page.url, domain := page.domain,
          isVisible := t.active, isIdle := idle, lastActivityTime := now }
      if t.active then
        match t.windowFocused with
        | some true =>
          let tm2 := { tm1 with currentFocusedTab := some tid }
          startTabActivity st1 tm2 tid idle now
        | _ => (st1, tm1)
      else (st1, tm1)
    | _, _ => acc
  else acc

/-- TabManager.initialize: enumerate the open tabs, upsert a Page per
tab, seed the in-memory state, and begin accrual only for a tab that is
the active tab of a window that itself has host focus. -/
def tabManagerInit (parse : String → Option URLParts) (idle : Bool)
    (tabs : List OpenTab) (st : Store) (tm : TabMgr) (now : Int) :
    Store × TabMgr :=
  tabs.foldl (fun acc t => tabStep parse idle acc t now) (st, tm)

/-- TabManager.cleanup: stop every tracked tab, then drop the in-memory
state. -/
def tabManagerCleanup (st : Store) (tm : TabMgr) (now : Int) : Store × TabMgr :=
  let st1 := (tm.activeTabs.map Prod.fst).foldl
    (fun s tid => (endTabActivity s tm tid now).2) st
  (st1, ⟨[], none⟩)

/-! ## BackgroundService message handling (background.ts lines 494-675)

The inbound message and the response of the onMessage wrapper.  A
branch of the switch that would throw (destructuring an absent
message.data) is the error case of Except; the wrapper then answers
success false with the error message, otherwise success true with the
returned data (null modelled as none). -/

inductive MsgData where
  | enabledFlag (enabled : Bool)
  | pageInfo (url title : String)
  | visibility (visible : Bool)
deriving DecidableEq, Repr

structure BaseMessage where
  mtype : String
  data : Option MsgData
deriving DecidableEq, Repr

inductive RespData where
  | todayTime (t : Int)
  | stats (topDomains : List DomainStats) (currentTab : Option (String × String))
  | enabledFlag (enabled : Bool)
  | okFlag
  | exported (pages : List Page) (events : List Event) (sessions : List Session)
      (version : String)
deriving DecidableEq, Repr

structure Response where
  success : Bool
  data : Option RespData
  error : Option String
deriving DecidableEq, Repr

/-- In-memory state of the BackgroundService. -/
structure BGState where
  store : Store
  tm : TabMgr
  sm : SessionMgr
  isTrackingEnabled : Bool
  badgeEnabled : Bool
deriving DecidableEq, Repr

/-- Ambient inputs of one handled message: the clock, the midnight
boundary, the host idle state, the currently open tabs, the generated
session id, the sender tab, and the URL parser. -/
structure Env where
  parse : String → Option URLParts
  now : Int
  startOfDay : Int
  idle : Bool
  openTabs : List OpenTab
  genSessionId : String
  senderTab : Option Nat

/-- SessionManager.getCurrentSessionId as seen by the handlers: the
current id when one is set (the lazily started session of the source
assigns it synchronously; the generated id is supplied by Env). -/
def currentSessionIdOf (env : Env) (bg : BGState) : String :=
  bg.sm.currentSessionId.getD env.genSessionId

/-- The currentTab component of the GET_STATS answer: the
url and domain of the focused tracked tab, when any. -/
def statsCurrentTab (bg : BGState) : Option (String × String) :=
  match bg.tm.currentFocusedTab with
  | none => none
  | some tid => (lookupTab bg.tm tid).map (fun tab => (tab.url, tab.domain))

/-- BackgroundService.handleMessage: the guard for paused tracking, then
the switch over message.type.  The default case logs and returns null. -/
def handleMessage (env : Env) (bg : BGState) (msg : BaseMessage) :
    Except String (Option RespData × BGState) :=
  if !bg.isTrackingEnabled &&
     !(msg.mtype = "IS_TRACKING_ENABLED" || msg.mtype = "RESUME_TRACKING") then
    .ok (none, bg)
  else if msg.mtype = "GET_TODAY_TIME" then
    .ok (some (.todayTime (getTodayActiveTime bg.store env.startOfDay env.now)), bg)
  else if msg.mtype = "GET_STATS" then
    .ok (some (.stats (getTopDomains bg.store 10) (statsCurrentTab bg)), bg)
  else if msg.mtype = "IS_TRACKING_ENABLED" then
    .ok (some (.enabledFlag bg.isTrackingEnabled), bg)
  else if msg.mtype = "PAUSE_TRACKING" then
    let (st1, tm1) := tabManagerCleanup bg.store bg.tm env.now
    .ok (some .okFlag, { bg with isTrackingEnabled := false, store := st1, tm := tm1 })
  else if msg.mtype = "RESUME_TRACKING" then
    let (st1, tm1) := tabManagerInit env.parse env.idle env.openTabs bg.store bg.tm env.now
    .ok (some .okFlag, { bg with isTrackingEnabled := true, store := st1, tm := tm1 })
  else if msg.mtype = "SET_BADGE_ENABLED" then
    match msg.data with
    | some (.enabledFlag b) => .ok (some .okFlag, { bg with badgeEnabled := b })
    | _ => .error "cannot destructure message.data"
  else if msg.mtype = "EXPORT_DATA" then
    .ok (some (.exported bg.store.pages bg.store.events bg.store.sessions "1.0"), bg)
  else if msg.mtype = "CLEAR_DATA" then
    let st1 := clearAllData bg.store
    let (sm2, st2) := sessionManagerInit bg.sm st1 env.genSessionId env.now
    let (st3, tm3) := tabManagerInit env.parse env.idle env.openTabs st2 bg.tm env.now
    .ok (some .okFlag, { bg with store := st3, tm := tm3, sm := sm2 })
  else if msg.mtype = "page_view" then
    match env.senderTab with
    | some tid =>
      match msg.data with
      | some (.pageInfo url title) =>
        let (st1, tm1) := handlePageView env.parse env.idle
          (currentSessionIdOf env bg) bg.store bg.tm tid url title none env.now
        .ok (none, { bg with store := st1, tm := tm1 })
      | _ => .error "cannot destructure message.data"
    | none => .ok (none, bg)
  else if msg.mtype = "VISIBILITY_CHANGE" then
    match env.senderTab with
    | some tid =>
      match msg.data with
      | some (.visibility v) =>
        let (st1, tm1) := handleVisibilityChange env.idle
          (currentSessionIdOf env bg) bg.store bg.tm tid v env.now
        .ok (none, { bg with store := st1, tm := tm1 })
      | _ => .error "cannot destructure message.data"
    | none => .ok (none, bg)
  else if msg.mtype = "scroll_depth" then .ok (none, bg)
  else if msg.mtype = "click" then .ok (none, bg)
  else if msg.mtype = "keydown" then .ok (none, bg)
  else
    .ok (none, bg)

/-- The sendResponse wrapper of setupMessageHandler. -/
def respond (env : Env) (bg : BGState) (msg : BaseMessage) : Response :=
  match handleMessage env bg msg with
  | .ok (r, _) => ⟨true, r, none⟩
  | .error e => ⟨false, none, some e⟩

/-- The message types the switch of handleMessage recognizes. -/
def supportedTypes : List String :=
  ["GET_TODAY_TIME", "GET_STATS", "IS_TRACKING_ENABLED", "PAUSE_TRACKING",
   "RESUME_TRACKING", "SET_BADGE_ENABLED", "EXPORT_DATA", "CLEAR_DATA",
   "page_view", "VISIBILITY_CHANGE", "scroll_depth", "click", "keydown"]

/-! ## Operation traces over the page registry

The four PageRegistry/EventStore operations the invariant claims range
over, each stamped with the clock value at which it runs. -/

inductive Op where
  | upsert (url title : String)
  | beginAccrual (pid : Nat)
  | endAccrual (pid : Nat)
  | appendEvent (pid : Nat) (sessionId etype : String)
deriving DecidableEq, Repr

def applyOp (parse : String → Option URLParts) (st : Store) (op : Op)
    (now : Int) : Store :=
  match op with
  | .upsert url title => (upsertPage parse st url title now).2
  | .beginAccrual pid => startPageActivity st pid now
  | .endAccrual pid => (endPageActivity st pid now).2
  | .appendEvent pid sid ty => addEvent st pid sid ty none now

def runOps (parse : String → Option URLParts) : Store → List (Op × Int) → Store
  | st, [] => st
  | st, (op, t) :: rest => runOps parse (applyOp parse st op t) rest

/-- The clock value after a trace. -/
def endClock : Int → List (Op × Int) → Int
  | c, [] => c
  | _, x :: rest => endClock x.2 rest

/-- The clock is non-decreasing along the trace and starts no earlier
than the given value. -/
def clockOk : Int → List (Op × Int) → Prop
  | _, [] => True
  | c, x :: rest => c ≤ x.2 ∧ clockOk x.2 rest

def decClockOk : (c : Int) → (l : List (Op × Int)) → Decidable (clockOk c l)
  | _, [] => isTrue trivial
  | c, x :: rest =>
    haveI : Decidable (clockOk x.2 rest) := decClockOk x.2 rest
    inferInstanceAs (Decidable (c ≤ x.2 ∧ clockOk x.2 rest))

instance (c : Int) (l : List (Op × Int)) : Decidable (clockOk c l) := decClockOk c l

/-- An open-accrual marker is no later than the clock (trivially true
when no marker is set). -/
def markerLE (clock : Int) (p : Page) : Prop :=
  p.currentSessionStart.getD clock ≤ clock

instance (clock : Int) (p : Page) : Decidable (markerLE clock p) :=
  inferInstanceAs (Decidable (_ ≤ _))

/-- Store well-formedness at a clock value: page ids are the distinct
Dexie primary keys, all below the auto-increment counter, and every
open marker was recorded at or before the clock. -/
def storeWF (clock : Int) (st : Store) : Prop :=
  (st.pages.map Page.id).Nodup ∧
  (∀ p ∈ st.pages, p.id < st.nextPageId) ∧
  (∀ p ∈ st.pages, markerLE clock p)

instance (clock : Int) (st : Store) : Decidable (storeWF clock st) :=
  inferInstanceAs (Decidable (_ ∧ _ ∧ _))

/-! ## Concrete fixtures used by the closed witness theorems -/

/-- A small concrete URL parser standing in for the host URL
constructor in closed evaluations. -/
def demoParse : String → Option URLParts := fun s =>
  if s = "https://a.com/x?q=1" then some ⟨"https:", "a.com", "a.com", "/x", "?q=1", ""⟩
  else if s = "https://a.com/x" then some ⟨"https:", "a.com", "a.com", "/x", "", ""⟩
  else if s = "https://a.com/" then some ⟨"https:", "a.com", "a.com", "/", "", ""⟩
  else if s = "https://b.org/y" then some ⟨"https:", "b.org", "b.org", "/y", "", ""⟩
  else none

/-- The empty store; Dexie auto-increment keys start at 1. -/
def emptyStore : Store :=
  { pages := [], events := [], sessions := [], settings := [], domain_rules := [],
    nextPageId := 1, nextSessionRowId := 1 }

/-! ## General lemmas -/

theorem findPageById_update (pages : List Page) (pid pid' : Nat) (f : Page → Page)
    (hid : ∀ p, (f p).id = p.id) :
    findPageById (updatePageById pages pid f) pid' =
      (findPageById pages pid').map (fun p => if p.id = pid then f p else p) := by
  unfold findPageById updatePageById
  rw [List.find?_map]
  congr 1
  have : ((fun p : Page => p.id == pid') ∘ fun p => if p.id = pid then f p else p) =
      fun p : Page => p.id == pid' := by
    funext p
    by_cases h : p.id = pid <;> simp [h, hid]
  rw [this]

theorem markerLE_mono {c t : Int} (h : c ≤ t) (p : Page) (hm : markerLE c p) :
    markerLE t p := by
  unfold markerLE at *
  cases hs : p.currentSessionStart with
  | none => simp
  | some s => rw [hs] at hm; simpa using le_trans (by simpa using hm) h

/-! ## C9: clear-all wipes only pages, events and sessions -/

/-- C9: clearAllData empties exactly the pages, events and sessions
tables; the settings table and the domain_rules table (of the variant
schema) are unchanged, as are the auto-increment counters. -/
theorem c9_clearAllData_frame (st : Store) :
    (clearAllData st).settings = st.settings ∧
    (clearAllData st).domain_rules = st.domain_rules ∧
    (clearAllData st).pages = [] ∧
    (clearAllData st).events = [] ∧
    (clearAllData st).sessions = [] ∧
    (clearAllData st).nextPageId = st.nextPageId ∧
    (clearAllData st).nextSessionRowId = st.nextSessionRowId :=
  ⟨rfl, rfl, rfl, rfl, rfl, rfl, rfl⟩

/-! ## C10: URL normalization is total and never throws -/

/-- C10: cleanUrl and extractDomain are total: every unparseable input
takes the catch branch, returning the raw input (which then serves as
the Page identity key) respectively the string unknown; every parseable
input yields protocol + host + path, with the query string and the
fragment dropped, respectively the hostname. -/
theorem c10_url_normalization_total (parse : String → Option URLParts) (url : String) :
    (parse url = none →
      cleanUrl parse url = url ∧ extractDomain parse url = "unknown") ∧
    (∀ u, parse url = some u →
      cleanUrl parse url = u.protocol ++ "//" ++ u.host ++ u.pathname ∧
      extractDomain parse url = u.hostname) := by
  constructor
  · intro h
    simp [cleanUrl, extractDomain, h]
  · intro u h
    simp [cleanUrl, extractDomain, h]

/-- Closed instantiation of c10_url_normalization_total at a
non-parseable and at a parseable input. -/
theorem c10_witness :
    (cleanUrl demoParse "notaurl" = "notaurl" ∧
     extractDomain demoParse "notaurl" = "unknown") ∧
    (cleanUrl demoParse "https://a.com/x?q=1" = "https:" ++ "//" ++ "a.com" ++ "/x" ∧
     extractDomain demoParse "https://a.com/x?q=1" = "a.com") :=
  ⟨(c10_url_normalization_total demoParse "notaurl").1 (by decide),
   (c10_url_normalization_total demoParse "https://a.com/x?q=1").2
     ⟨"https:", "a.com", "a.com", "/x", "?q=1", ""⟩ (by decide)⟩

/-! ## C2: end-accrual is idempotent -/

/-- Whether the page bound to pid currently carries a (truthy)
open-accrual marker. -/
def hasOpenMarker (st : Store) (pid : Nat) : Bool :=
  match findPageById st.pages pid with
  | some p => (truthyStart p.currentSessionStart).isSome
  | none => false

/-- C2: with no open marker, endPageActivity returns elapsed 0 and
performs no mutation; and after any endPageActivity call the second
consecutive call on the same page returns 0 and leaves the store in the
state produced by the first call. -/
theorem c2_endPageActivity_idempotent (st : Store) (pid : Nat) (now now2 : Int) :
    (hasOpenMarker st pid = false → endPageActivity st pid now = (0, st)) ∧
    endPageActivity (endPageActivity st pid now).2 pid now2 =
      (0, (endPageActivity st pid now).2) := by
  constructor
  · intro h
    unfold endPageActivity
    cases hf : findPageById st.pages pid with
    | none => simp
    | some page =>
      have h2 : (truthyStart page.currentSessionStart).isSome = false := by
        unfold hasOpenMarker at h
        rw [hf] at h
        simpa using h
      have h3 : truthyStart page.currentSessionStart = none := by
        cases ht : truthyStart page.currentSessionStart with
        | none => rfl
        | some s => rw [ht] at h2; simp at h2
      simp [h3]
  · cases hf : findPageById st.pages pid with
    | none => simp [endPageActivity, hf]
    | some page =>
      cases ht : truthyStart page.currentSessionStart with
      | none => simp [endPageActivity, hf, ht]
      | some s =>
        have hfind := findPageById_update st.pages pid pid
          (fun p => { p with totalActiveTime := page.totalActiveTime + (now - s),
                             currentSessionStart := none, lastVisit := now })
          (fun _ => rfl)
        have hpid := List.find?_some
          (show List.find? (fun p : Page => p.id == pid) st.pages = some page from hf)
        have hpe : page.id = pid := by simpa using hpid
        simp only [endPageActivity, hf, ht]
        simp [hfind, hf, hpe, truthyStart]

/-- Closed instantiation of c2_endPageActivity_idempotent on a store
whose single page has no open marker. -/
theorem c2_witness :
    (hasOpenMarker
        { emptyStore with
            pages := [⟨1, "https://a.com/", "a.com", "A", 1, 2, 7, none, 3⟩],
            nextPageId := 2 } 1 = false) ∧
    endPageActivity
        { emptyStore with
            pages := [⟨1, "https://a.com/", "a.com", "A", 1, 2, 7, none, 3⟩],
            nextPageId := 2 } 1 50 =
      (0, { emptyStore with
              pages := [⟨1, "https://a.com/", "a.com", "A", 1, 2, 7, none, 3⟩],
              nextPageId := 2 }) :=
  ⟨by decide,
   (c2_endPageActivity_idempotent
      { emptyStore with
          pages := [⟨1, "https://a.com/", "a.com", "A", 1, 2, 7, none, 3⟩],
          nextPageId := 2 } 1 50 0).1 (by decide)⟩

/-! ## C6: the stale-session sweep of initialize -/

/-- The sessions table after SessionManager.initialize. -/
def sessionsAfterInit (sm : SessionMgr) (st : Store) (genId : String) (now : Int) :
    List Session :=
  ((sessionManagerInit sm st genId now).2).sessions

/-- The where(isActive).equals(1) query matches no boolean-stored row,
so the sweep of initialize() is always a no-op on the table. -/
theorem sessionInitClose_noop (sessions : List Session) (endTime : Int) :
    sessionInitClose sessions endTime = sessions := by
  unfold sessionInitClose whereIsActiveEquals
  have hempty : sessions.filter (fun s => boolIndexKey s.isActive == some 1) = [] := by
    rw [List.filter_eq_nil_iff]
    intro s _
    simp [boolIndexKey]
  rw [hempty]
  rfl

/-- C6: the claim (and the spec in sections 4.3 and 8) requires
initialize() to close every session left active by an abnormal prior
termination, and the code plainly attempts exactly that sweep, but its
query where(isActive).equals(1) compares the numeric key 1 against a
field the code only ever stores as a boolean — a value IndexedDB does
not index — so the query matches nothing: the stale session keeps
isActive true with no endTime, and after the fresh session is added the
store holds two active sessions. -/
theorem c6_stale_session_not_closed :
    sessionsAfterInit ⟨none⟩
        { emptyStore with
            sessions := [⟨1, "s-old", 5, none, true⟩], nextSessionRowId := 2 }
        "s-new" 100 =
      [⟨1, "s-old", 5, none, true⟩, ⟨2, "s-new", 100, none, true⟩] ∧
    ((sessionsAfterInit ⟨none⟩
        { emptyStore with
            sessions := [⟨1, "s-old", 5, none, true⟩], nextSessionRowId := 2 }
        "s-new" 100).filter (fun s => s.isActive)).length = 2 := by decide

/-! ## C3: the today aggregate -/

theorem foldl_add_sum (g : Page → Int) (l : List Page) :
    ∀ init : Int, l.foldl (fun a p => a + g p) init = init + (l.map g).sum := by
  induction l with
  | nil => intro init; simp
  | cons p rest ih =>
    intro init
    rw [List.foldl_cons, ih, List.map_cons, List.sum_cons, add_assoc]

/-- The claim of the spec fails on the code: in this trace the single
committed span runs from clock 10 to clock 15 and the accrual is closed
(no open marker), so with the current day starting at clock 100 no time
is attributable to the day, yet getTodayActiveTime at clock 200 returns
the full committed 5 rather than 0: committed time accrued on earlier
days is included in the result. -/
def c3Trace : Store :=
  runOps demoParse emptyStore
    [(.upsert "https://a.com/" "A", 10), (.beginAccrual 1, 10), (.endAccrual 1, 15)]

/-- Counterexample to C3 as stated: a page whose whole committed time
predates the start of the current day (lastVisit 15 < 100, marker
closed) still contributes its 5 ms to the today aggregate. -/
theorem c3_counterexample :
    c3Trace.pages.map Page.currentSessionStart = [none] ∧
    c3Trace.pages.map Page.lastVisit = [15] ∧
    c3Trace.pages.map Page.totalActiveTime = [5] ∧
    getTodayActiveTime c3Trace 100 200 = 5 ∧
    ¬ getTodayActiveTime c3Trace 100 200 = 0 := by decide

/-- C3 amended: getTodayActiveTime sums, over every page, the full
committed totalActiveTime — including time accrued on earlier days —
plus the in-progress span now - start for a page whose truthy open
marker started at or after the day boundary; in particular when no
accrual is open it is exactly the all-time committed sum. -/
theorem c3_today_amended (st : Store) (d n : Int) :
    getTodayActiveTime st d n =
      (st.pages.map (fun p => p.totalActiveTime + todayOpenSpan d n p)).sum ∧
    ((∀ p ∈ st.pages, p.currentSessionStart = none) →
      getTodayActiveTime st d n = (st.pages.map Page.totalActiveTime).sum) := by
  have h1 : getTodayActiveTime st d n =
      (st.pages.map (fun p => p.totalActiveTime + todayOpenSpan d n p)).sum := by
    unfold getTodayActiveTime
    have : (fun (total : Int) (page : Page) =>
        total + page.totalActiveTime + todayOpenSpan d n page) =
        fun a p => a + (p.totalActiveTime + todayOpenSpan d n p) := by
      funext a p
      rw [add_assoc]
    rw [this, foldl_add_sum (fun p => p.totalActiveTime + todayOpenSpan d n p), zero_add]
  refine ⟨h1, fun hclosed => ?_⟩
  rw [h1]
  congr 1
  apply List.map_congr_left
  intro p hp
  simp [todayOpenSpan, truthyStart, hclosed p hp]

/-- Closed instantiation of c3_today_amended on the trace store. -/
theorem c3_witness :
    getTodayActiveTime c3Trace 100 200 =
      (c3Trace.pages.map (fun p => p.totalActiveTime + todayOpenSpan 100 200 p)).sum ∧
    (∀ p ∈ c3Trace.pages, p.currentSessionStart = none) ∧
    getTodayActiveTime c3Trace 100 200 =
      (c3Trace.pages.map Page.totalActiveTime).sum :=
  ⟨(c3_today_amended c3Trace 100 200).1, by decide,
   (c3_today_amended c3Trace 100 200).2 (by decide)⟩

/-! ## C8: unknown inbound request types -/

def c8Env : Env :=
  { parse := demoParse, now := 100, startOfDay := 50, idle := false,
    openTabs := [], genSessionId := "session-1", senderTab := none }

def c8Bg : BGState :=
  { store := emptyStore, tm := ⟨[], none⟩, sm := ⟨none⟩,
    isTrackingEnabled := true, badgeEnabled := true }

/-- Counterexample to C8 as stated: the default case answers
success true with null data, which is byte-for-byte the same response a
supported operation (keydown) receives — there is no distinguishable
unsupported-operation indication. -/
theorem c8_counterexample :
    respond c8Env c8Bg ⟨"NOT_A_SUPPORTED_TYPE", none⟩ = ⟨true, none, none⟩ ∧
    respond c8Env c8Bg ⟨"NOT_A_SUPPORTED_TYPE", none⟩ =
      respond c8Env c8Bg ⟨"keydown", none⟩ ∧
    (respond c8Env c8Bg ⟨"NOT_A_SUPPORTED_TYPE", none⟩).success = true := by
  constructor
  · rfl
  · constructor
    · rfl
    · rfl

/-- C8 amended: every request whose type is not among the supported
operations is always answered — the handler neither throws nor drops
the request and does not change any state — but the answer is the
success true / null data response, identical to the response of a
supported null-returning operation rather than an explicit
unsupported-operation indication. -/
theorem c8_unknown_amended (env : Env) (bg : BGState) (msg : BaseMessage)
    (h : msg.mtype ∉ supportedTypes) :
    handleMessage env bg msg = .ok (none, bg) ∧
    respond env bg msg = ⟨true, none, none⟩ := by
  simp only [supportedTypes, List.mem_cons, List.not_mem_nil, or_false, not_or] at h
  obtain ⟨h1, h2, h3, h4, h5, h6, h7, h8, h9, h10, h11, h12, h13⟩ := h
  have hm : handleMessage env bg msg = .ok (none, bg) := by
    unfold handleMessage
    rw [if_neg h1, if_neg h2, if_neg h3, if_neg h4, if_neg h5, if_neg h6, if_neg h7,
      if_neg h8, if_neg h9, if_neg h10, if_neg h11, if_neg h12, if_neg h13]
    split
    · rfl
    · rfl
  exact ⟨hm, by rw [respond, hm]⟩

/-- Closed instantiation of c8_unknown_amended at a concrete unknown
request type. -/
theorem c8_witness :
    handleMessage c8Env c8Bg ⟨"NO_SUCH_OP", none⟩ = .ok (none, c8Bg) ∧
    respond c8Env c8Bg ⟨"NO_SUCH_OP", none⟩ = ⟨true, none, none⟩ :=
  c8_unknown_amended c8Env c8Bg ⟨"NO_SUCH_OP", none⟩ (by decide)

/-! ## C5: CLEAR_DATA then GET_STATS / GET_TODAY_TIME -/

theorem sessionManagerInit_frame (sm : SessionMgr) (st : Store) (g : String) (n : Int) :
    ((sessionManagerInit sm st g n).2).pages = st.pages ∧
    ((sessionManagerInit sm st g n).2).events = st.events := by
  unfold sessionManagerInit startSession endSession
  cases sm.currentSessionId <;> exact ⟨rfl, rfl⟩

theorem tabManagerInit_untrackable (parse : String → Option URLParts) (idle : Bool)
    (tabs : List OpenTab) (st : Store) (tm : TabMgr) (now : Int)
    (h : ∀ t ∈ tabs, trackableTab t = false) :
    tabManagerInit parse idle tabs st tm now = (st, tm) := by
  induction tabs with
  | nil => rfl
  | cons t rest ih =>
    unfold tabManagerInit at *
    rw [List.foldl_cons]
    have hstep : tabStep parse idle (st, tm) t now = (st, tm) := by
      unfold tabStep
      rw [if_neg (by simp [h t (List.mem_cons_self t rest)])]
    rw [hstep]
    exact ih (fun t' ht' => h t' (List.mem_cons_of_mem t ht'))

/-- The state the handler leaves after a CLEAR_DATA request. -/
def clearDataResult (env : Env) (bg : BGState) : BGState :=
  match handleMessage env bg ⟨"CLEAR_DATA", none⟩ with
  | .ok (_, bg1) => bg1
  | .error _ => bg

def c5Tabs : List OpenTab := [⟨some 1, some "https://a.com/", some "A", false, some false⟩]

def c5Env (tabs : List OpenTab) : Env :=
  { parse := demoParse, now := 100, startOfDay := 50, idle := false,
    openTabs := tabs, genSessionId := "session-1", senderTab := none }

def c5Bg : BGState :=
  { store := { emptyStore with
      pages := [⟨1, "https://b.org/y", "b.org", "B", 1, 2, 7, none, 3⟩],
      nextPageId := 2 },
    tm := ⟨[], none⟩, sm := ⟨none⟩, isTrackingEnabled := true, badgeEnabled := true }

/-- Counterexample to C5 as stated: with one ordinary open tab, the
CLEAR_DATA branch wipes the tables but then re-runs
TabManager.initialize, which re-upserts a Page for the open tab, so the
immediately following GET_STATS reports a non-empty top-domains list. -/
theorem c5_counterexample :
    respond (c5Env c5Tabs) (clearDataResult (c5Env c5Tabs) c5Bg) ⟨"GET_STATS", none⟩ =
      ⟨true, some (.stats [⟨"a.com", 0, 1, 1⟩] none), none⟩ ∧
    ([⟨"a.com", 0, 1, 1⟩] : List DomainStats) ≠ [] := by
  constructor
  · decide
  · intro h
    simp at h

/-- C5 amended: when tracking is enabled and no trackable tab is open
at re-initialization time, CLEAR_DATA succeeds and the subsequent
GET_STATS answers an empty top-domains list while GET_TODAY_TIME
answers 0; with trackable open tabs the re-initialization re-creates
their Page rows, so the lists need not be empty. -/
theorem c5_clear_amended (env : Env) (bg : BGState)
    (henabled : bg.isTrackingEnabled = true)
    (htabs : ∀ t ∈ env.openTabs, trackableTab t = false) :
    handleMessage env bg ⟨"CLEAR_DATA", none⟩ =
      .ok (some .okFlag, clearDataResult env bg) ∧
    respond env (clearDataResult env bg) ⟨"GET_STATS", none⟩ =
      ⟨true, some (.stats [] (statsCurrentTab (clearDataResult env bg))), none⟩ ∧
    respond env (clearDataResult env bg) ⟨"GET_TODAY_TIME", none⟩ =
      ⟨true, some (.todayTime 0), none⟩ := by
  have hstep : handleMessage env bg ⟨"CLEAR_DATA", none⟩ =
      .ok (some .okFlag,
        { bg with
            store := ((sessionManagerInit bg.sm (clearAllData bg.store)
                        env.genSessionId env.now).2),
            tm := bg.tm,
            sm := (sessionManagerInit bg.sm (clearAllData bg.store)
                        env.genSessionId env.now).1 }) := by
    unfold handleMessage
    rw [if_neg (by simp [henabled])]
    rw [if_neg (by decide), if_neg (by decide), if_neg (by decide), if_neg (by decide),
      if_neg (by decide), if_neg (by decide), if_neg (by decide), if_pos rfl]
    rcases hpair : sessionManagerInit bg.sm (clearAllData bg.store)
      env.genSessionId env.now with ⟨sm2, st2⟩
    simp only [hpair]
    rw [tabManagerInit_untrackable env.parse env.idle env.openTabs st2 bg.tm env.now htabs]
  have hres : clearDataResult env bg =
      { bg with
          store := ((sessionManagerInit bg.sm (clearAllData bg.store)
                      env.genSessionId env.now).2),
          tm := bg.tm,
          sm := (sessionManagerInit bg.sm (clearAllData bg.store)
                      env.genSessionId env.now).1 } := by
    unfold clearDataResult
    rw [hstep]
  have hpages : (clearDataResult env bg).store.pages = [] := by
    rw [hres]
    exact (sessionManagerInit_frame bg.sm (clearAllData bg.store)
      env.genSessionId env.now).1
  have henabled1 : (clearDataResult env bg).isTrackingEnabled = true := by
    rw [hres]
    exact henabled
  refine ⟨by rw [hstep, hres], ?_, ?_⟩
  · have htop : getTopDomains (clearDataResult env bg).store 10 = [] := by
      unfold getTopDomains domainEntries
      rw [hpages]
      rfl
    unfold respond handleMessage
    rw [if_neg (by simp [henabled1])]
    rw [if_neg (by decide), if_pos rfl, htop]
  · have htoday : getTodayActiveTime (clearDataResult env bg).store
        env.startOfDay env.now = 0 := by
      unfold getTodayActiveTime
      rw [hpages]
      rfl
    unfold respond handleMessage
    rw [if_neg (by simp [henabled1])]
    rw [if_pos rfl, htoday]

/-- Closed instantiation of c5_clear_amended with no open tabs. -/
theorem c5_witness :
    handleMessage (c5Env []) c5Bg ⟨"CLEAR_DATA", none⟩ =
      .ok (some .okFlag, clearDataResult (c5Env []) c5Bg) ∧
    respond (c5Env []) (clearDataResult (c5Env []) c5Bg) ⟨"GET_STATS", none⟩ =
      ⟨true, some (.stats [] (statsCurrentTab (clearDataResult (c5Env []) c5Bg))), none⟩ ∧
    respond (c5Env []) (clearDataResult (c5Env []) c5Bg) ⟨"GET_TODAY_TIME", none⟩ =
      ⟨true, some (.todayTime 0), none⟩ :=
  c5_clear_amended (c5Env []) c5Bg rfl (by decide)

/-! ## C4: the top-domains aggregate -/

theorem storeWF_mono {c t : Int} (h : c ≤ t) {st : Store} (hwf : storeWF c st) :
    storeWF t st :=
  ⟨hwf.1, hwf.2.1, fun p hp => markerLE_mono h p (hwf.2.2 p hp)⟩

theorem updatePageById_mem {pages : List Page} {pid : Nat} {f : Page → Page} {q : Page}
    (hq : q ∈ updatePageById pages pid f) :
    ∃ p ∈ pages, q = if p.id = pid then f p else p := by
  obtain ⟨p, hp, hpq⟩ := List.mem_map.mp hq
  exact ⟨p, hp, hpq.symm⟩

theorem updatePageById_map_id (pages : List Page) (pid : Nat) (f : Page → Page)
    (hid : ∀ p, (f p).id = p.id) :
    (updatePageById pages pid f).map Page.id = pages.map Page.id := by
  unfold updatePageById
  rw [List.map_map]
  apply List.map_congr_left
  intro p _
  by_cases h : p.id = pid <;> simp [h, hid]

theorem unique_page_of_nodup {pages : List Page} {pid : Nat}
    (hnd : (pages.map Page.id).Nodup) {page : Page}
    (hf : findPageById pages pid = some page) {p : Page} (hp : p ∈ pages)
    (hpid : p.id = pid) : p = page := by
  have hmem : page ∈ pages := List.mem_of_find?_eq_some hf
  have hpred := List.find?_some
    (show List.find? (fun q : Page => q.id == pid) pages = some page from hf)
  have hpg : page.id = pid := by simpa using hpred
  exact List.inj_on_of_nodup_map hnd hp hmem (by rw [hpid, hpg])

theorem upsertPage_existing (parse : String → Option URLParts) (st : Store)
    (url title : String) (now : Int) {ex : Page}
    (hfind : findPageByUrl st.pages (cleanUrl parse url) = some ex) :
    upsertPage parse st url title now =
      ({ ex with title := title, lastVisit := now, visitCount := ex.visitCount + 1 },
       { st with pages := updatePageById st.pages ex.id (fun p =>
          { p with title := title, lastVisit := now,
                   visitCount := ex.visitCount + 1 }) }) := by
  unfold upsertPage
  simp only [hfind]

theorem upsertPage_fresh (parse : String → Option URLParts) (st : Store)
    (url title : String) (now : Int)
    (hfind : findPageByUrl st.pages (cleanUrl parse url) = none) :
    upsertPage parse st url title now =
      (⟨st.nextPageId, cleanUrl parse url,
        extractDomain parse (cleanUrl parse url), title, now, now, 0, none, 1⟩,
       { st with
          pages := st.pages ++ [⟨st.nextPageId, cleanUrl parse url,
            extractDomain parse (cleanUrl parse url), title, now, now, 0, none, 1⟩],
          nextPageId := st.nextPageId + 1 }) := by
  unfold upsertPage
  simp only [hfind]

theorem startPageActivity_begin (st : Store) (pid : Nat) (now : Int) {page : Page}
    (hfind : findPageById st.pages pid = some page)
    (htr : truthyStart page.currentSessionStart = none) :
    startPageActivity st pid now =
      { st with pages := updatePageById st.pages pid (fun p =>
          { p with currentSessionStart := some now, lastVisit := now }) } := by
  unfold startPageActivity
  simp only [hfind, htr]

theorem endPageActivity_commit (st : Store) (pid : Nat) (now : Int) {page : Page}
    {s : Int} (hfind : findPageById st.pages pid = some page)
    (htr : truthyStart page.currentSessionStart = some s) :
    endPageActivity st pid now =
      (now - s,
       { st with pages := updatePageById st.pages pid (fun p =>
          { p with totalActiveTime := page.totalActiveTime + (now - s),
                   currentSessionStart := none, lastVisit := now }) }) := by
  unfold endPageActivity
  simp only [hfind, htr]

theorem truthyStart_some {o : Option Int} {s : Int} (h : truthyStart o = some s) :
    o = some s := by
  cases o with
  | none => simp [truthyStart] at h
  | some s0 =>
    by_cases h0 : s0 = 0
    · simp [truthyStart, h0] at h
    · simp only [truthyStart, if_neg h0] at h
      exact h

theorem storeWF_update {c t : Int} (st : Store) (pid : Nat) (f : Page → Page)
    (hwf : storeWF c st) (hct : c ≤ t)
    (hid : ∀ p, (f p).id = p.id)
    (hmk : ∀ p ∈ st.pages, markerLE t (f p)) :
    storeWF t { st with pages := updatePageById st.pages pid f } := by
  obtain ⟨hnd, hbound, hmark⟩ := hwf
  refine ⟨?_, ?_, ?_⟩
  · show ((updatePageById st.pages pid f).map Page.id).Nodup
    rw [updatePageById_map_id _ _ _ hid]
    exact hnd
  · intro q hq
    obtain ⟨p, hp, hpq⟩ := updatePageById_mem hq
    have hq_id : q.id = p.id := by
      rw [hpq]
      by_cases h : p.id = pid <;> simp [h, hid]
    show q.id < st.nextPageId
    rw [hq_id]
    exact hbound p hp
  · intro q hq
    obtain ⟨p, hp, hpq⟩ := updatePageById_mem hq
    by_cases h : p.id = pid
    · rw [hpq, if_pos h]
      exact hmk p hp
    · rw [hpq, if_neg h]
      exact markerLE_mono hct p (hmark p hp)

theorem storeWF_append_fresh {c t : Int} (st : Store) (new : Page)
    (hwf : storeWF c st) (hct : c ≤ t)
    (hidn : new.id = st.nextPageId) (hmk : markerLE t new) :
    storeWF t { st with pages := st.pages ++ [new],
                        nextPageId := st.nextPageId + 1 } := by
  obtain ⟨hnd, hbound, hmark⟩ := hwf
  refine ⟨?_, ?_, ?_⟩
  · show ((st.pages ++ [new]).map Page.id).Nodup
    rw [List.map_append, List.nodup_append]
    refine ⟨hnd, by simp, ?_⟩
    intro x hx hx1
    simp only [List.map_cons, List.map_nil, List.mem_singleton] at hx1
    obtain ⟨p, hp, hpx⟩ := List.mem_map.mp hx
    have := hbound p hp
    omega
  · intro q hq
    rcases List.mem_append.mp hq with hq1 | hq2
    · have := hbound q hq1
      show q.id < st.nextPageId + 1
      omega
    · simp only [List.mem_singleton] at hq2
      subst hq2
      show q.id < st.nextPageId + 1
      omega
  · intro q hq
    rcases List.mem_append.mp hq with hq1 | hq2
    · exact markerLE_mono hct q (hmark q hq1)
    · simp only [List.mem_singleton] at hq2
      subst hq2
      exact hmk

theorem mono_refl (st : Store) (pages' : List Page) (h : st.pages = pages') :
    ∀ p ∈ st.pages, ∃ p' ∈ pages', p'.id = p.id ∧ p.totalActiveTime ≤ p'.totalActiveTime :=
  fun p hp => ⟨p, h ▸ hp, rfl, le_refl _⟩

/-- One operation at a clock value no earlier than the store's:
well-formedness is preserved and no totalActiveTime decreases. -/
theorem applyOp_mono (parse : String → Option URLParts) {c t : Int} (st : Store)
    (op : Op) (hwf : storeWF c st) (hct : c ≤ t) :
    storeWF t (applyOp parse st op t) ∧
    ∀ p ∈ st.pages, ∃ p' ∈ (applyOp parse st op t).pages,
      p'.id = p.id ∧ p.totalActiveTime ≤ p'.totalActiveTime := by
  cases op with
  | appendEvent pid sid ty =>
    exact ⟨storeWF_mono hct hwf, mono_refl st _ rfl⟩
  | upsert url title =>
    show storeWF t (upsertPage parse st url title t).2 ∧
      ∀ p ∈ st.pages, ∃ p' ∈ ((upsertPage parse st url title t).2).pages,
        p'.id = p.id ∧ p.totalActiveTime ≤ p'.totalActiveTime
    cases hfind : findPageByUrl st.pages (cleanUrl parse url) with
    | some ex =>
      rw [upsertPage_existing parse st url title t hfind]
      constructor
      · exact storeWF_update st ex.id _ hwf hct (fun _ => rfl)
          (fun p hp => markerLE_mono hct p (hwf.2.2 p hp))
      · intro p hp
        refine ⟨if p.id = ex.id then
            { p with title := title, lastVisit := t, visitCount := ex.visitCount + 1 }
          else p, List.mem_map_of_mem _ hp, ?_, ?_⟩
        · by_cases h : p.id = ex.id <;> simp [h]
        · by_cases h : p.id = ex.id <;> simp [h]
    | none =>
      rw [upsertPage_fresh parse st url title t hfind]
      constructor
      · exact storeWF_append_fresh st _ hwf hct rfl (by unfold markerLE; simp)
      · intro p hp
        exact ⟨p, List.mem_append_left _ hp, rfl, le_refl _⟩
  | beginAccrual pid =>
    show storeWF t (startPageActivity st pid t) ∧
      ∀ p ∈ st.pages, ∃ p' ∈ (startPageActivity st pid t).pages,
        p'.id = p.id ∧ p.totalActiveTime ≤ p'.totalActiveTime
    cases hfind : findPageById st.pages pid with
    | none =>
      have hnoop : startPageActivity st pid t = st := by
        unfold startPageActivity
        simp only [hfind]
      rw [hnoop]
      exact ⟨storeWF_mono hct hwf, mono_refl st _ rfl⟩
    | some page =>
      cases htr : truthyStart page.currentSessionStart with
      | some s =>
        have hnoop : startPageActivity st pid t = st := by
          unfold startPageActivity
          simp only [hfind, htr]
        rw [hnoop]
        exact ⟨storeWF_mono hct hwf, mono_refl st _ rfl⟩
      | none =>
        rw [startPageActivity_begin st pid t hfind htr]
        constructor
        · refine storeWF_update st pid _ hwf hct (fun _ => rfl) ?_
          intro p _
          unfold markerLE
          simp
        · intro p hp
          refine ⟨if p.id = pid then
              { p with currentSessionStart := some t, lastVisit := t }
            else p, List.mem_map_of_mem _ hp, ?_, ?_⟩
          · by_cases h : p.id = pid <;> simp [h]
          · by_cases h : p.id = pid <;> simp [h]
  | endAccrual pid =>
    show storeWF t (endPageActivity st pid t).2 ∧
      ∀ p ∈ st.pages, ∃ p' ∈ ((endPageActivity st pid t).2).pages,
        p'.id = p.id ∧ p.totalActiveTime ≤ p'.totalActiveTime
    cases hfind : findPageById st.pages pid with
    | none =>
      have hnoop : (endPageActivity st pid t).2 = st := by
        unfold endPageActivity
        simp only [hfind]
      rw [hnoop]
      exact ⟨storeWF_mono hct hwf, mono_refl st _ rfl⟩
    | some page =>
      cases htr : truthyStart page.currentSessionStart with
      | none =>
        have hnoop : (endPageActivity st pid t).2 = st := by
          unfold endPageActivity
          simp only [hfind, htr]
        rw [hnoop]
        exact ⟨storeWF_mono hct hwf, mono_refl st _ rfl⟩
      | some s =>
        have hs : page.currentSessionStart = some s := truthyStart_some htr
        have hsc : s ≤ c := by
          have := hwf.2.2 page (List.mem_of_find?_eq_some hfind)
          unfold markerLE at this
          rw [hs] at this
          simpa using this
        rw [show (endPageActivity st pid t).2 =
            { st with pages := updatePageById st.pages pid (fun p =>
                { p with totalActiveTime := page.totalActiveTime + (t - s),
                         currentSessionStart := none, lastVisit := t }) } by
          rw [endPageActivity_commit st pid t hfind htr]]
        constructor
        · refine storeWF_update st pid _ hwf hct (fun _ => rfl) ?_
          intro p _
          unfold markerLE
          simp
        · intro p hp
          by_cases h : p.id = pid
          · have hpe : p = page := unique_page_of_nodup hwf.1 hfind hp h
            have hm := List.mem_map_of_mem
              (fun q => if q.id = pid then
                { q with totalActiveTime := page.totalActiveTime + (t - s),
                         currentSessionStart := none, lastVisit := t } else q) hp
            simp only [h, if_true, eq_self_iff_true] at hm
            refine ⟨_, hm, by simp [h], ?_⟩
            show p.totalActiveTime ≤ page.totalActiveTime + (t - s)
            rw [hpe]
            omega
          · refine ⟨p, ?_, rfl, le_refl _⟩
            have hm := List.mem_map_of_mem
              (fun q => if q.id = pid then
                { q with totalActiveTime := page.totalActiveTime + (t - s),
                         currentSessionStart := none, lastVisit := t } else q) hp
            simp only [h, if_false, eq_self_iff_true] at hm
            exact hm

/-- Along any trace with a non-decreasing clock, well-formedness is
preserved and every page of the initial store keeps its id with a
totalActiveTime at least as large. -/
theorem runOps_mono (parse : String → Option URLParts) (ops : List (Op × Int)) :
    ∀ (c : Int) (st : Store), storeWF c st → clockOk c ops →
      storeWF (endClock c ops) (runOps parse st ops) ∧
      ∀ p ∈ st.pages, ∃ p' ∈ (runOps parse st ops).pages,
        p'.id = p.id ∧ p.totalActiveTime ≤ p'.totalActiveTime := by
  induction ops with
  | nil =>
    intro c st hwf _
    exact ⟨hwf, fun p hp => ⟨p, hp, rfl, le_refl _⟩⟩
  | cons x rest ih =>
    intro c st hwf hck
    obtain ⟨op, t⟩ := x
    obtain ⟨hct, hck2⟩ := hck
    obtain ⟨hwf1, hmono1⟩ := applyOp_mono parse st op hwf hct
    obtain ⟨hwf2, hmono2⟩ := ih t (applyOp parse st op t) hwf1 hck2
    refine ⟨hwf2, ?_⟩
    intro p hp
    obtain ⟨p1, hp1, hid1, hle1⟩ := hmono1 p hp
    obtain ⟨p2, hp2, hid2, hle2⟩ := hmono2 p1 hp1
    exact ⟨p2, hp2, hid2.trans hid1, le_trans hle1 hle2⟩

theorem upsertPage_total_frame (parse : String → Option URLParts) (st : Store)
    (url title : String) (now : Int) :
    ∀ p ∈ st.pages, ∃ p' ∈ ((upsertPage parse st url title now).2).pages,
      p'.id = p.id ∧ p'.totalActiveTime = p.totalActiveTime := by
  intro p hp
  cases hfind : findPageByUrl st.pages (cleanUrl parse url) with
  | some ex =>
    rw [upsertPage_existing parse st url title now hfind]
    refine ⟨if p.id = ex.id then
        { p with title := title, lastVisit := now, visitCount := ex.visitCount + 1 }
      else p, List.mem_map_of_mem _ hp, ?_, ?_⟩
    · by_cases h : p.id = ex.id <;> simp [h]
    · by_cases h : p.id = ex.id <;> simp [h]
  | none =>
    rw [upsertPage_fresh parse st url title now hfind]
    exact ⟨p, List.mem_append_left _ hp, rfl, rfl⟩

theorem startPageActivity_total_frame (st : Store) (pid : Nat) (now : Int) :
    ∀ p ∈ st.pages, ∃ p' ∈ (startPageActivity st pid now).pages,
      p'.id = p.id ∧ p'.totalActiveTime = p.totalActiveTime := by
  intro p hp
  cases hfind : findPageById st.pages pid with
  | none =>
    have hnoop : startPageActivity st pid now = st := by
      unfold startPageActivity
      simp only [hfind]
    rw [hnoop]
    exact ⟨p, hp, rfl, rfl⟩
  | some page =>
    cases htr : truthyStart page.currentSessionStart with
    | some s =>
      have hnoop : startPageActivity st pid now = st := by
        unfold startPageActivity
        simp only [hfind, htr]
      rw [hnoop]
      exact ⟨p, hp, rfl, rfl⟩
    | none =>
      rw [startPageActivity_begin st pid now hfind htr]
      refine ⟨if p.id = pid then
          { p with currentSessionStart := some now, lastVisit := now }
        else p, List.mem_map_of_mem _ hp, ?_, ?_⟩
      · by_cases h : p.id = pid <;> simp [h]
      · by_cases h : p.id = pid <;> simp [h]

theorem endPageActivity_elapsed_nonneg {c t : Int} (st : Store) (pid : Nat)
    (hwf : storeWF c st) (hct : c ≤ t) : 0 ≤ (endPageActivity st pid t).1 := by
  cases hfind : findPageById st.pages pid with
  | none =>
    have h0 : (endPageActivity st pid t).1 = 0 := by
      unfold endPageActivity
      simp only [hfind]
    rw [h0]
  | some page =>
    cases htr : truthyStart page.currentSessionStart with
    | none =>
      have h0 : (endPageActivity st pid t).1 = 0 := by
        unfold endPageActivity
        simp only [hfind, htr]
      rw [h0]
    | some s =>
      have hs : page.currentSessionStart = some s := truthyStart_some htr
      have hsc : s ≤ c := by
        have := hwf.2.2 page (List.mem_of_find?_eq_some hfind)
        unfold markerLE at this
        rw [hs] at this
        simpa using this
      rw [endPageActivity_commit st pid t hfind htr]
      show 0 ≤ t - s
      omega

theorem upsertPage_fresh_total (parse : String → Option URLParts) (st : Store)
    (url title : String) (now : Int)
    (h : findPageByUrl st.pages (cleanUrl parse url) = none) :
    (upsertPage parse st url title now).1.totalActiveTime = 0 := by
  rw [upsertPage_fresh parse st url title now h]

/-- C1: assuming page ids are well-formed, open markers predate the
clock, and the clock is non-decreasing, totalActiveTime never decreases
over any trace of upsert / begin-accrual / end-accrual / append-event;
upsertPage and startPageActivity leave it unchanged, endPageActivity
returns a non-negative elapsed span, and a freshly created page starts
at 0. -/
theorem c1_totalActiveTime_monotone (parse : String → Option URLParts)
    (clock t : Int) (st : Store) (ops : List (Op × Int)) (url title : String)
    (pid : Nat) (hwf : storeWF clock st) (hck : clockOk clock ops)
    (hct : clock ≤ t) :
    (∀ p ∈ st.pages, ∃ p' ∈ (runOps parse st ops).pages,
        p'.id = p.id ∧ p.totalActiveTime ≤ p'.totalActiveTime) ∧
    (∀ p ∈ st.pages, ∃ p' ∈ ((upsertPage parse st url title t).2).pages,
        p'.id = p.id ∧ p'.totalActiveTime = p.totalActiveTime) ∧
    (∀ p ∈ st.pages, ∃ p' ∈ (startPageActivity st pid t).pages,
        p'.id = p.id ∧ p'.totalActiveTime = p.totalActiveTime) ∧
    0 ≤ (endPageActivity st pid t).1 ∧
    (findPageByUrl st.pages (cleanUrl parse url) = none →
      (upsertPage parse st url title t).1.totalActiveTime = 0) :=
  ⟨(runOps_mono parse ops clock st hwf hck).2,
   upsertPage_total_frame parse st url title t,
   startPageActivity_total_frame st pid t,
   endPageActivity_elapsed_nonneg st pid hwf hct,
   fun h => upsertPage_fresh_total parse st url title t h⟩

def c1Store : Store :=
  { emptyStore with
      pages := [⟨1, "https://a.com/", "a.com", "A", 1, 5, 7, some 5, 2⟩],
      nextPageId := 2 }

def c1Ops : List (Op × Int) :=
  [(.upsert "https://b.org/y" "B", 12), (.beginAccrual 1, 12), (.endAccrual 1, 20)]

/-- Closed instantiation of c1_totalActiveTime_monotone on a store with
one page carrying an open marker. -/
theorem c1_witness :
    (storeWF 10 c1Store ∧ clockOk 10 c1Ops ∧ (10 : Int) ≤ 15) ∧
    ((∀ p ∈ c1Store.pages, ∃ p' ∈ (runOps demoParse c1Store c1Ops).pages,
        p'.id = p.id ∧ p.totalActiveTime ≤ p'.totalActiveTime) ∧
     (∀ p ∈ c1Store.pages,
        ∃ p' ∈ ((upsertPage demoParse c1Store "https://b.org/y" "B" 15).2).pages,
          p'.id = p.id ∧ p'.totalActiveTime = p.totalActiveTime) ∧
     (∀ p ∈ c1Store.pages, ∃ p' ∈ (startPageActivity c1Store 1 15).pages,
        p'.id = p.id ∧ p'.totalActiveTime = p.totalActiveTime) ∧
     0 ≤ (endPageActivity c1Store 1 15).1 ∧
     (findPageByUrl c1Store.pages (cleanUrl demoParse "https://b.org/y") = none →
       (upsertPage demoParse c1Store "https://b.org/y" "B" 15).1.totalActiveTime = 0)) :=
  ⟨⟨by decide, by decide, by decide⟩,
   c1_totalActiveTime_monotone demoParse 10 15 c1Store c1Ops "https://b.org/y" "B" 1
     (by decide) (by decide) (by decide)⟩

/-! ## C7: visit counting per page-view and per tab -/

/-- The identity-relevant projection of a page row: its normalized URL
key, its primary id and its visit count. -/
def pageKey (p : Page) : String × Nat × Nat := (p.url, p.id, p.visitCount)

def storeKeys (st : Store) : List (String × Nat × Nat) := st.pages.map pageKey

/-- Pages whose normalized URL equals the key. -/
def countUrl (st : Store) (u : String) : Nat :=
  (st.pages.filter (fun p => p.url == u)).length

theorem countUrl_keys (st : Store) (u : String) :
    countUrl st u = ((storeKeys st).filter (fun k => k.1 == u)).length := by
  unfold countUrl storeKeys
  rw [List.filter_map, List.length_map]
  congr 1

theorem find_url_none_of_countUrl_zero {st : Store} {u : String}
    (h : countUrl st u = 0) : findPageByUrl st.pages u = none := by
  unfold countUrl at h
  unfold findPageByUrl
  rw [List.find?_eq_none]
  intro p hp hpu
  have hmem : p ∈ st.pages.filter (fun p => p.url == u) :=
    List.mem_filter.mpr ⟨hp, hpu⟩
  rw [List.length_eq_zero.mp h] at hmem
  cases hmem

/-- Finding by URL in a page list whose key list ends in the unique
entry with that URL determines the id and visit count of the hit. -/
theorem find_url_key {u : String} {i c : Nat} :
    ∀ (pages : List Page) (K : List (String × Nat × Nat)),
      pages.map pageKey = K ++ [(u, i, c)] →
      (∀ k ∈ K, ¬k.1 = u) →
      ∃ ex, findPageByUrl pages u = some ex ∧ ex.url = u ∧ ex.id = i ∧
        ex.visitCount = c := by
  intro pages
  induction pages with
  | nil =>
    intro K hk _
    simp at hk
  | cons p rest ih =>
    intro K hk hK
    cases K with
    | nil =>
      simp only [List.map_cons, List.nil_append] at hk
      have hp : pageKey p = (u, i, c) := by
        have := congrArg (fun l => l.head?) hk
        simpa using this
      have hrest : rest.map pageKey = [] := by
        have := congrArg (fun l => l.tail) hk
        simpa using this
      have hpu : p.url = u := congrArg Prod.fst hp
      refine ⟨p, ?_, hpu, ?_, ?_⟩
      · unfold findPageByUrl
        exact List.find?_cons_of_pos _ (by simpa using hpu)
      · exact congrArg (fun k => k.2.1) hp
      · exact congrArg (fun k => k.2.2) hp
    | cons k K2 =>
      simp only [List.map_cons, List.cons_append, List.cons.injEq] at hk
      obtain ⟨hpk, hrest⟩ := hk
      have hku : ¬k.1 = u := hK k (List.mem_cons_self k K2)
      have hpu : ¬p.url = u := by
        rw [show p.url = k.1 from congrArg Prod.fst hpk]
        exact hku
      obtain ⟨ex, hfind, h1, h2, h3⟩ :=
        ih K2 hrest (fun k2 hk2 => hK k2 (List.mem_cons_of_mem k hk2))
      refine ⟨ex, ?_, h1, h2, h3⟩
      unfold findPageByUrl at hfind ⊢
      rw [List.find?_cons_of_neg _ (by simpa using hpu)]
      exact hfind

theorem lookupTab_setTab (tm : TabMgr) (tid : Nat) (v : ActiveTab) (x : Nat) :
    lookupTab (setTab tm tid v) x = if x = tid then some v else lookupTab tm x := by
  unfold lookupTab setTab
  by_cases hpresent : tm.activeTabs.any (fun kv => kv.1 == tid) = true
  · rw [if_pos hpresent]
    simp only
    rw [List.find?_map]
    by_cases hx : x = tid
    · subst hx
      have hpred : ((fun kv : Nat × ActiveTab => kv.1 == x) ∘ fun kv =>
          if kv.1 = x then (x, v) else kv) = fun kv : Nat × ActiveTab => kv.1 == x := by
        funext kv
        by_cases h : kv.1 = x <;> simp [h]
      rw [hpred, if_pos rfl]
      obtain ⟨kv0, hkv0, hkvp⟩ := List.any_eq_true.mp hpresent
      cases hfind : tm.activeTabs.find? (fun kv => kv.1 == x) with
      | none =>
        rw [List.find?_eq_none] at hfind
        exact absurd hkvp (by simpa using hfind kv0 hkv0)
      | some kv1 =>
        have hkv1 := List.find?_some hfind
        simp only [Option.map_some']
        have hkx : kv1.1 = x := by simpa using hkv1
        simp [hkx]
    · have hpred : ((fun kv : Nat × ActiveTab => kv.1 == x) ∘ fun kv =>
          if kv.1 = tid then (tid, v) else kv) =
          fun kv : Nat × ActiveTab => kv.1 == x := by
        funext kv
        by_cases h : kv.1 = tid
        · have htx : (tid == x) = false := by
            rw [beq_eq_false_iff_ne]
            exact fun hh => hx hh.symm
          simp [h, htx]
        · simp [h]
      rw [hpred, if_neg hx]
      cases hfind : tm.activeTabs.find? (fun kv => kv.1 == x) with
      | none => simp
      | some kv1 =>
        have hkv1f := List.find?_some hfind
        have hkv1 : kv1.1 = x := by simpa using hkv1f
        simp only [Option.map_some']
        rw [if_neg (by rw [hkv1]; exact hx)]
  · rw [if_neg hpresent]
    simp only
    rw [List.find?_append]
    by_cases hx : x = tid
    · subst hx
      have hnone : tm.activeTabs.find? (fun kv => kv.1 == x) = none := by
        rw [List.find?_eq_none]
        intro kv hkv hp
        exact hpresent (List.any_eq_true.mpr ⟨kv, hkv, hp⟩)
      rw [hnone, if_pos rfl]
      rw [List.find?_cons_of_pos _ (by simp)]
      rfl
    · rw [if_neg hx]
      have hsingle : List.find? (fun kv : Nat × ActiveTab => kv.1 == x) [(tid, v)] =
          none := by
        rw [List.find?_cons_of_neg _ (by simp; intro hh; exact hx hh.symm)]
        rfl
      rw [hsingle]
      cases tm.activeTabs.find? (fun kv => kv.1 == x) <;> simp

theorem storeKeys_update_of_key_id (st : Store) (pid : Nat) (f : Page → Page)
    (hkey : ∀ p, pageKey (f p) = pageKey p) :
    storeKeys { st with pages := updatePageById st.pages pid f } = storeKeys st := by
  unfold storeKeys updatePageById
  rw [List.map_map]
  apply List.map_congr_left
  intro p _
  by_cases h : p.id = pid <;> simp [h, hkey]

theorem storeKeys_endPageActivity (st : Store) (pid : Nat) (now : Int) :
    storeKeys (endPageActivity st pid now).2 = storeKeys st ∧
    ((endPageActivity st pid now).2).nextPageId = st.nextPageId := by
  cases hfind : findPageById st.pages pid with
  | none =>
    have h : (endPageActivity st pid now).2 = st := by
      unfold endPageActivity
      simp only [hfind]
    rw [h]
    exact ⟨rfl, rfl⟩
  | some page =>
    cases htr : truthyStart page.currentSessionStart with
    | none =>
      have h : (endPageActivity st pid now).2 = st := by
        unfold endPageActivity
        simp only [hfind, htr]
      rw [h]
      exact ⟨rfl, rfl⟩
    | some s =>
      rw [endPageActivity_commit st pid now hfind htr]
      exact ⟨storeKeys_update_of_key_id st pid _ (fun p => rfl), rfl⟩

theorem storeKeys_startPageActivity (st : Store) (pid : Nat) (now : Int) :
    storeKeys (startPageActivity st pid now) = storeKeys st ∧
    (startPageActivity st pid now).nextPageId = st.nextPageId := by
  cases hfind : findPageById st.pages pid with
  | none =>
    have h : startPageActivity st pid now = st := by
      unfold startPageActivity
      simp only [hfind]
    rw [h]
    exact ⟨rfl, rfl⟩
  | some page =>
    cases htr : truthyStart page.currentSessionStart with
    | some s =>
      have h : startPageActivity st pid now = st := by
        unfold startPageActivity
        simp only [hfind, htr]
      rw [h]
      exact ⟨rfl, rfl⟩
    | none =>
      rw [startPageActivity_begin st pid now hfind htr]
      exact ⟨storeKeys_update_of_key_id st pid _ (fun p => rfl), rfl⟩

theorem storeKeys_endTabActivity (st : Store) (tm : TabMgr) (tid : Nat) (now : Int) :
    storeKeys (endTabActivity st tm tid now).2 = storeKeys st ∧
    ((endTabActivity st tm tid now).2).nextPageId = st.nextPageId := by
  unfold endTabActivity
  cases hlook : lookupTab tm tid with
  | none => exact ⟨rfl, rfl⟩
  | some tab =>
    simp only
    exact storeKeys_endPageActivity st tab.pageId now

theorem storeKeys_startTabActivity (st : Store) (tm : TabMgr) (tid : Nat)
    (idle : Bool) (now : Int) :
    storeKeys (startTabActivity st tm tid idle now).1 = storeKeys st ∧
    ((startTabActivity st tm tid idle now).1).nextPageId = st.nextPageId := by
  unfold startTabActivity
  cases hlook : lookupTab tm tid with
  | none => exact ⟨rfl, rfl⟩
  | some tab =>
    by_cases hc : (tab.isVisible && !idle && (tm.currentFocusedTab == some tid)) = true
    · simp only [hc, if_true]
      exact storeKeys_startPageActivity st tab.pageId now
    · simp only [hc, if_false]
      exact ⟨rfl, rfl⟩

theorem lookupTab_pageId_startTabActivity (st : Store) (tm : TabMgr) (tid : Nat)
    (idle : Bool) (now : Int) (x : Nat) :
    (lookupTab (startTabActivity st tm tid idle now).2 x).map ActiveTab.pageId =
      (lookupTab tm x).map ActiveTab.pageId := by
  unfold startTabActivity
  cases hlook : lookupTab tm tid with
  | none => rfl
  | some tab =>
    by_cases hc : (tab.isVisible && !idle && (tm.currentFocusedTab == some tid)) = true
    · simp only [hc, if_true]
      rw [lookupTab_setTab]
      by_cases hx : x = tid
      · subst hx
        rw [if_pos rfl, hlook]
        rfl
      · rw [if_neg hx]
    · simp only [hc, if_false]
      rfl

theorem storeKeys_addEvent (st : Store) (pid : Nat) (sid ty : String)
    (payload : Option String) (now : Int) :
    storeKeys (addEvent st pid sid ty payload now) = storeKeys st := rfl

/-- A page-view on a URL with no existing Page row appends exactly one
fresh row keyed by the normalized URL with visitCount 1, and rebinds
the tab to the fresh page id. -/
theorem handlePageView_fresh_keys (parse : String → Option URLParts) (idle : Bool)
    (sid : String) (st : Store) (tm : TabMgr) (tid : Nat) (u title : String)
    (r : Option String) (now : Int)
    (hu : countUrl st (cleanUrl parse u) = 0) :
    storeKeys (handlePageView parse idle sid st tm tid u title r now).1 =
      storeKeys st ++ [(cleanUrl parse u, st.nextPageId, 1)] ∧
    ((handlePageView parse idle sid st tm tid u title r now).1).nextPageId =
      st.nextPageId + 1 ∧
    ∀ x, (lookupTab (handlePageView parse idle sid st tm tid u title r now).2 x).map
        ActiveTab.pageId =
      if x = tid then some st.nextPageId else (lookupTab tm x).map ActiveTab.pageId := by
  obtain ⟨hk1, hn1⟩ := storeKeys_endTabActivity st tm tid now
  have hcount1 : countUrl (endTabActivity st tm tid now).2 (cleanUrl parse u) = 0 := by
    rw [countUrl_keys, hk1, ← countUrl_keys]
    exact hu
  have hfind1 : findPageByUrl ((endTabActivity st tm tid now).2).pages
      (cleanUrl parse u) = none := find_url_none_of_countUrl_zero hcount1
  have hup := upsertPage_fresh parse ((endTabActivity st tm tid now).2) u title now hfind1
  simp only [handlePageView, hup]
  split
  · refine ⟨?_, ?_, ?_⟩
    · rw [(storeKeys_startTabActivity _ _ tid idle now).1]
      rw [storeKeys_addEvent]
      show storeKeys { (endTabActivity st tm tid now).2 with
          pages := ((endTabActivity st tm tid now).2).pages ++ [_],
          nextPageId := ((endTabActivity st tm tid now).2).nextPageId + 1 } = _
      unfold storeKeys
      rw [show ({ (endTabActivity st tm tid now).2 with
          pages := ((endTabActivity st tm tid now).2).pages ++
            [⟨((endTabActivity st tm tid now).2).nextPageId, cleanUrl parse u,
              extractDomain parse (cleanUrl parse u), title, now, now, 0, none, 1⟩],
          nextPageId := ((endTabActivity st tm tid now).2).nextPageId + 1 } : Store).pages
          = ((endTabActivity st tm tid now).2).pages ++
            [⟨((endTabActivity st tm tid now).2).nextPageId, cleanUrl parse u,
              extractDomain parse (cleanUrl parse u), title, now, now, 0, none, 1⟩] from rfl]
      rw [List.map_append]
      show (storeKeys (endTabActivity st tm tid now).2) ++ _ = _
      rw [hk1, hn1]
      rfl
    · rw [(storeKeys_startTabActivity _ _ tid idle now).2]
      show ((endTabActivity st tm tid now).2).nextPageId + 1 = st.nextPageId + 1
      rw [hn1]
    · intro x
      rw [lookupTab_pageId_startTabActivity]
      rw [lookupTab_setTab]
      by_cases hx : x = tid
      · rw [if_pos hx, if_pos hx]
        show some ((endTabActivity st tm tid now).2).nextPageId = _
        rw [hn1]
      · rw [if_neg hx, if_neg hx]
  · refine ⟨?_, ?_, ?_⟩
    · rw [storeKeys_addEvent]
      unfold storeKeys
      rw [show ({ (endTabActivity st tm tid now).2 with
          pages := ((endTabActivity st tm tid now).2).pages ++
            [⟨((endTabActivity st tm tid now).2).nextPageId, cleanUrl parse u,
              extractDomain parse (cleanUrl parse u), title, now, now, 0, none, 1⟩],
          nextPageId := ((endTabActivity st tm tid now).2).nextPageId + 1 } : Store).pages
          = ((endTabActivity st tm tid now).2).pages ++
            [⟨((endTabActivity st tm tid now).2).nextPageId, cleanUrl parse u,
              extractDomain parse (cleanUrl parse u), title, now, now, 0, none, 1⟩] from rfl]
      rw [List.map_append]
      show (storeKeys (endTabActivity st tm tid now).2) ++ _ = _
      rw [hk1, hn1]
      rfl
    · show ((endTabActivity st tm tid now).2).nextPageId + 1 = st.nextPageId + 1
      rw [hn1]
    · intro x
      rw [lookupTab_setTab]
      by_cases hx : x = tid
      · rw [if_pos hx, if_pos hx]
        show some ((endTabActivity st tm tid now).2).nextPageId = _
        rw [hn1]
      · rw [if_neg hx, if_neg hx]

theorem storeKeys_update_visitCount (st : Store) (N : Nat) (title : String)
    (now : Int) (c : Nat) :
    storeKeys { st with pages := updatePageById st.pages N (fun p =>
      { p with title := title, lastVisit := now, visitCount := c }) } =
    (storeKeys st).map (fun k => if k.2.1 = N then (k.1, N, c) else k) := by
  unfold storeKeys updatePageById
  rw [List.map_map, List.map_map]
  apply List.map_congr_left
  intro p _
  by_cases h : p.id = N <;> simp [pageKey, h]

/-- A page-view on a URL whose unique Page row carries visitCount 1
bumps exactly that row to visitCount 2 (same id), and rebinds the tab
to that page id. -/
theorem handlePageView_existing_keys (parse : String → Option URLParts) (idle : Bool)
    (sid : String) (st : Store) (tm : TabMgr) (tid : Nat) (u title : String)
    (r : Option String) (now : Int) {K : List (String × Nat × Nat)} {N : Nat}
    (hkeys : storeKeys st = K ++ [(cleanUrl parse u, N, 1)])
    (hK : ∀ k ∈ K, ¬k.1 = cleanUrl parse u) :
    (∃ K2 : List (String × Nat × Nat),
      storeKeys (handlePageView parse idle sid st tm tid u title r now).1 =
        K2 ++ [(cleanUrl parse u, N, 2)] ∧
      ∀ k ∈ K2, ¬k.1 = cleanUrl parse u) ∧
    ∀ x, (lookupTab (handlePageView parse idle sid st tm tid u title r now).2 x).map
        ActiveTab.pageId =
      if x = tid then some N else (lookupTab tm x).map ActiveTab.pageId := by
  obtain ⟨hk1, hn1⟩ := storeKeys_endTabActivity st tm tid now
  have hkeys1 : ((endTabActivity st tm tid now).2).pages.map pageKey =
      K ++ [(cleanUrl parse u, N, 1)] := by
    show storeKeys (endTabActivity st tm tid now).2 = _
    rw [hk1, hkeys]
  obtain ⟨ex, hfind, hexu, hexi, hexc⟩ :=
    find_url_key ((endTabActivity st tm tid now).2).pages K hkeys1 hK
  have hup := upsertPage_existing parse ((endTabActivity st tm tid now).2)
    u title now hfind
  have hkeys2 : storeKeys { (endTabActivity st tm tid now).2 with
      pages := updatePageById ((endTabActivity st tm tid now).2).pages ex.id (fun p =>
        { p with title := title, lastVisit := now,
                 visitCount := ex.visitCount + 1 }) } =
      K.map (fun k => if k.2.1 = N then (k.1, N, 2) else k) ++
        [(cleanUrl parse u, N, 2)] := by
    rw [storeKeys_update_visitCount ((endTabActivity st tm tid now).2) ex.id title now
      (ex.visitCount + 1)]
    rw [show storeKeys (endTabActivity st tm tid now).2 =
        K ++ [(cleanUrl parse u, N, 1)] from hkeys1]
    rw [List.map_append, hexi, hexc]
    simp
  have hK2 : ∀ k ∈ K.map (fun k => if k.2.1 = N then (k.1, N, 2) else k),
      ¬k.1 = cleanUrl parse u := by
    intro k hk
    obtain ⟨k0, hk0, hkk⟩ := List.mem_map.mp hk
    have h1 : k.1 = k0.1 := by
      rw [← hkk]
      by_cases h : k0.2.1 = N <;> simp [h]
    rw [h1]
    exact hK k0 hk0
  simp only [handlePageView, hup]
  constructor
  · refine ⟨K.map (fun k => if k.2.1 = N then (k.1, N, 2) else k), ?_, hK2⟩
    split
    · rw [(storeKeys_startTabActivity _ _ tid idle now).1, storeKeys_addEvent]
      exact hkeys2
    · rw [storeKeys_addEvent]
      exact hkeys2
  · intro x
    split
    · rw [lookupTab_pageId_startTabActivity, lookupTab_setTab]
      by_cases hx : x = tid
      · rw [if_pos hx, if_pos hx]
        show some ex.id = some N
        rw [hexi]
      · rw [if_neg hx, if_neg hx]
    · rw [lookupTab_setTab]
      by_cases hx : x = tid
      · rw [if_pos hx, if_pos hx]
        show some ex.id = some N
        rw [hexi]
      · rw [if_neg hx, if_neg hx]

/-- Two successive page-views (possibly from different tabs) on the
same URL. -/
def pageViewTwice (parse : String → Option URLParts) (idle1 idle2 : Bool)
    (sid1 sid2 : String) (st : Store) (tm : TabMgr) (t1 t2 : Nat)
    (u title1 title2 : String) (r1 r2 : Option String) (n1 n2 : Int) :
    Store × TabMgr :=
  let s1 := handlePageView parse idle1 sid1 st tm t1 u title1 r1 n1
  handlePageView parse idle2 sid2 s1.1 s1.2 t2 u title2 r2 n2

def c7Tabs : List OpenTab :=
  [⟨some 1, some "https://a.com/", some "A", false, some false⟩,
   ⟨some 2, some "https://a.com/", some "A2", false, some false⟩]

/-- Counterexample to C7 as stated: startup recovery over two tabs that
both show the same URL calls upsertPage once per tab, leaving the single
shared Page aggregate with visitCount 2 although no page_view event was
appended at all — the count grew merely because tabs show the URL. -/
theorem c7_counterexample :
    (tabManagerInit demoParse false c7Tabs emptyStore ⟨[], none⟩ 100).1.pages.map
        Page.visitCount = [2] ∧
    (tabManagerInit demoParse false c7Tabs emptyStore ⟨[], none⟩ 100).1.events = [] ∧
    ((tabManagerInit demoParse false c7Tabs emptyStore ⟨[], none⟩ 100).2.activeTabs.map
        (fun kv => kv.2.pageId)) = [1, 1] := by decide

/-- C7 amended: one page-view in each of two distinct tabs showing the
same normalized URL (previously absent from the registry) maps both
tabs to the single shared Page aggregate and leaves its visitCount at
exactly 2 — one increment per page-view, its creation counting as the
first visit; startup recovery, by contrast, re-runs upsertPage once per
enumerated tab and therefore also increments per tab (see the
counterexample). -/
theorem c7_visitCount_amended (parse : String → Option URLParts)
    (idle1 idle2 : Bool) (sid1 sid2 : String) (st : Store) (tm : TabMgr)
    (t1 t2 : Nat) (u title1 title2 : String) (r1 r2 : Option String)
    (n1 n2 : Int) (hne : t1 ≠ t2) (hu : countUrl st (cleanUrl parse u) = 0) :
    countUrl (pageViewTwice parse idle1 idle2 sid1 sid2 st tm t1 t2 u title1 title2
        r1 r2 n1 n2).1 (cleanUrl parse u) = 1 ∧
    (∀ p ∈ (pageViewTwice parse idle1 idle2 sid1 sid2 st tm t1 t2 u title1 title2
        r1 r2 n1 n2).1.pages,
      p.url = cleanUrl parse u → p.id = st.nextPageId ∧ p.visitCount = 2) ∧
    (lookupTab (pageViewTwice parse idle1 idle2 sid1 sid2 st tm t1 t2 u title1 title2
        r1 r2 n1 n2).2 t1).map ActiveTab.pageId = some st.nextPageId ∧
    (lookupTab (pageViewTwice parse idle1 idle2 sid1 sid2 st tm t1 t2 u title1 title2
        r1 r2 n1 n2).2 t2).map ActiveTab.pageId = some st.nextPageId := by
  obtain ⟨hkeysA, hnA, hlookA⟩ :=
    handlePageView_fresh_keys parse idle1 sid1 st tm t1 u title1 r1 n1 hu
  have hKprop : ∀ k ∈ storeKeys st, ¬k.1 = cleanUrl parse u := by
    intro k hk hk1
    have hck := countUrl_keys st (cleanUrl parse u)
    rw [hu] at hck
    have hfil : (storeKeys st).filter (fun k => k.1 == cleanUrl parse u) = [] :=
      List.length_eq_zero.mp hck.symm
    have hmem : k ∈ (storeKeys st).filter (fun k => k.1 == cleanUrl parse u) :=
      List.mem_filter.mpr ⟨hk, by simp [hk1]⟩
    rw [hfil] at hmem
    cases hmem
  obtain ⟨⟨K2, hkeysB, hK2⟩, hlookB⟩ :=
    handlePageView_existing_keys parse idle2 sid2
      (handlePageView parse idle1 sid1 st tm t1 u title1 r1 n1).1
      (handlePageView parse idle1 sid1 st tm t1 u title1 r1 n1).2
      t2 u title2 r2 n2 hkeysA hKprop
  refine ⟨?_, ?_, ?_, ?_⟩
  · rw [countUrl_keys]
    show ((storeKeys (pageViewTwice parse idle1 idle2 sid1 sid2 st tm t1 t2 u title1
        title2 r1 r2 n1 n2).1).filter (fun k => k.1 == cleanUrl parse u)).length = 1
    rw [show storeKeys (pageViewTwice parse idle1 idle2 sid1 sid2 st tm t1 t2 u title1
        title2 r1 r2 n1 n2).1 = K2 ++ [(cleanUrl parse u, st.nextPageId, 2)]
      from hkeysB]
    rw [List.filter_append]
    have hfilK2 : K2.filter (fun k => k.1 == cleanUrl parse u) = [] := by
      rw [List.filter_eq_nil_iff]
      intro k hk
      simp [hK2 k hk]
    rw [hfilK2]
    simp
  · intro p hp hpu
    have hkmem : pageKey p ∈ K2 ++ [(cleanUrl parse u, st.nextPageId, 2)] := by
      rw [← hkeysB]
      exact List.mem_map_of_mem pageKey hp
    rcases List.mem_append.mp hkmem with hin | hin
    · exact absurd (show (pageKey p).1 = cleanUrl parse u from hpu) (hK2 _ hin)
    · simp only [List.mem_singleton] at hin
      exact ⟨congrArg (fun k => k.2.1) hin, congrArg (fun k => k.2.2) hin⟩
  · rw [show (pageViewTwice parse idle1 idle2 sid1 sid2 st tm t1 t2 u title1 title2
        r1 r2 n1 n2).2 = (handlePageView parse idle2 sid2
          (handlePageView parse idle1 sid1 st tm t1 u title1 r1 n1).1
          (handlePageView parse idle1 sid1 st tm t1 u title1 r1 n1).2
          t2 u title2 r2 n2).2 from rfl]
    rw [hlookB t1, if_neg hne, hlookA t1, if_pos rfl]
  · rw [show (pageViewTwice parse idle1 idle2 sid1 sid2 st tm t1 t2 u title1 title2
        r1 r2 n1 n2).2 = (handlePageView parse idle2 sid2
          (handlePageView parse idle1 sid1 st tm t1 u title1 r1 n1).1
          (handlePageView parse idle1 sid1 st tm t1 u title1 r1 n1).2
          t2 u title2 r2 n2).2 from rfl]
    rw [hlookB t2, if_pos rfl]

/-- Closed instantiation of c7_visitCount_amended: two page-views from
tabs 1 and 2 on the same URL starting from the empty store. -/
theorem c7_witness :
    countUrl (pageViewTwice demoParse false false "s" "s" emptyStore ⟨[], none⟩ 1 2
        "https://a.com/x?q=1" "A" "B" none none 10 20).1
      (cleanUrl demoParse "https://a.com/x?q=1") = 1 ∧
    (∀ p ∈ (pageViewTwice demoParse false false "s" "s" emptyStore ⟨[], none⟩ 1 2
        "https://a.com/x?q=1" "A" "B" none none 10 20).1.pages,
      p.url = cleanUrl demoParse "https://a.com/x?q=1" →
        p.id = emptyStore.nextPageId ∧ p.visitCount = 2) ∧
    (lookupTab (pageViewTwice demoParse false false "s" "s" emptyStore ⟨[], none⟩ 1 2
        "https://a.com/x?q=1" "A" "B" none none 10 20).2 1).map ActiveTab.pageId =
      some emptyStore.nextPageId ∧
    (lookupTab (pageViewTwice demoParse false false "s" "s" emptyStore ⟨[], none⟩ 1 2
        "https://a.com/x?q=1" "A" "B" none none 10 20).2 2).map ActiveTab.pageId =
      some emptyStore.nextPageId :=
  c7_visitCount_amended demoParse false false "s" "s" emptyStore ⟨[], none⟩ 1 2
    "https://a.com/x?q=1" "A" "B" none none 10 20 (by decide) (by decide)

end Analytics
